import Mathlib

/-!
Verification of the EAA license backend core subsystem: license lifecycle
(webhook-driven upsert and status transitions), the validation service, the
domain matcher, and the plan catalog.

The embedding mirrors the JavaScript source. A database is a list of license
rows; SQL statements become list transformations:
- SELECT ... WHERE license_key = k AND status = 'active' with rows[0] becomes
  List.find? over the row list;
- UPDATE ... WHERE p becomes a map that rewrites every row satisfying p;
- INSERT ... ON CONFLICT (customer_id) DO UPDATE becomes an upsert keyed by
  customer_id (the persistence interface the handler is written against).
Timestamps are integers (milliseconds since the Unix epoch); a nullable
timestamp is an Option Int.  The JavaScript comparison
license.expires_at < new Date() coerces a SQL NULL (JS null) to 0, which is
captured by jsDateLt below.
-/

/-- One row of the licenses table (setupDatabase in the source). -/
structure License where
  license_key : String
  customer_id : String
  subscription_id : Option String
  email : String
  domain : String
  plan : String
  status : String
  created_at : Option Int
  updated_at : Option Int
  expires_at : Option Int
  last_used : Option Int
  usage_count : Int
deriving DecidableEq, Repr

/-- The feature-entitlement set returned by getLicenseFeatures. -/
structure FeatureSet where
  scanning : Bool
  basic_fixes : Bool
  advanced_fixes : Bool
  widget : Bool
  max_scans_per_month : Int
  max_websites : Int
  priority_support : Bool
  api_access : Bool
  white_label : Bool
  detailed_reports : Bool
deriving DecidableEq, Repr

/-- The starter-plan feature object from getLicenseFeatures. -/
def starterFeatures : FeatureSet :=
  { scanning := true
  , basic_fixes := true
  , advanced_fixes := false
  , widget := true
  , max_scans_per_month := 100
  , max_websites := 1
  , priority_support := false
  , api_access := false
  , white_label := false
  , detailed_reports := false }

/-- The pro-plan feature object from getLicenseFeatures. -/
def proFeatures : FeatureSet :=
  { scanning := true
  , basic_fixes := true
  , advanced_fixes := true
  , widget := true
  , max_scans_per_month := 500
  , max_websites := 3
  , priority_support := true
  , api_access := false
  , white_label := false
  , detailed_reports := true }

/-- The enterprise-plan feature object from getLicenseFeatures; -1 encodes
unlimited. -/
def enterpriseFeatures : FeatureSet :=
  { scanning := true
  , basic_fixes := true
  , advanced_fixes := true
  , widget := true
  , max_scans_per_month := -1
  , max_websites := -1
  , priority_support := true
  , api_access := true
  , white_label := true
  , detailed_reports := true }

/-- getLicenseFeatures from the source: object lookup features[plan] with
fallback features.starter for any unknown plan. -/
def getLicenseFeatures (plan : String) : FeatureSet :=
  if plan = "starter" then starterFeatures
  else if plan = "pro" then proFeatures
  else if plan = "enterprise" then enterpriseFeatures
  else starterFeatures

/-- Claim C7: getLicenseFeatures is total over plan identifiers; every plan
outside the known set (starter, pro, enterprise) is mapped to the starter
(lowest tier) feature set rather than erroring. -/
theorem getLicenseFeatures_unknown_plan (p : String)
    (h1 : p ≠ "starter") (h2 : p ≠ "pro") (h3 : p ≠ "enterprise") :
    getLicenseFeatures p = getLicenseFeatures "starter" := by
  simp [getLicenseFeatures, h1, h2, h3]

/-- Witness for claim C7 at the concrete unknown plan "gold". -/
theorem getLicenseFeatures_unknown_plan_witness :
    getLicenseFeatures "gold" = getLicenseFeatures "starter" :=
  getLicenseFeatures_unknown_plan "gold" (by decide) (by decide) (by decide)

/-- Reading back the code point of a character built from a valid code
point. -/
theorem toNat_ofNat_valid (n : Nat) (h : n.isValidChar) :
    (Char.ofNat n).toNat = n := by
  simp [Char.ofNat, h, Char.ofNatAux, Char.toNat, UInt32.toNat, UInt32.ofNat',
    BitVec.toNat_ofNatLt]

/-- One step of JavaScript toLowerCase restricted to the ASCII range, as
Lean's Char.toLower: shifting an upper-case ASCII letter down by 32 is
idempotent. -/
theorem toLower_toLower (c : Char) : (c.toLower).toLower = c.toLower := by
  unfold Char.toLower
  by_cases h : c.toNat ≥ 65 ∧ c.toNat ≤ 90
  · rw [if_pos h]
    have hv : (c.toNat + 32).isValidChar := by
      unfold Nat.isValidChar
      omega
    rw [toNat_ofNat_valid _ hv, if_neg (by omega)]
  · rw [if_neg h, if_neg h]

/-- The character list of the scheme marker "https://". -/
def httpsChars : List Char := ['h', 't', 't', 'p', 's', ':', '/', '/']

/-- The character list of the scheme marker "http://". -/
def httpChars : List Char := ['h', 't', 't', 'p', ':', '/', '/']

/-- The character list of the subdomain marker "www.". -/
def wwwChars : List Char := ['w', 'w', 'w', '.']

/-- The regex replace of a leading scheme, .replace applied once at the start
of the string: strip "https://" or "http://" when present. -/
def stripScheme (s : List Char) : List Char :=
  if httpsChars.isPrefixOf s then s.drop 8
  else if httpChars.isPrefixOf s then s.drop 7
  else s

/-- The regex replace of a leading "www.", applied once. -/
def stripWww (s : List Char) : List Char :=
  if wwwChars.isPrefixOf s then s.drop 4 else s

/-- The regex replace of one trailing slash. -/
def stripTrailingSlash (s : List Char) : List Char :=
  if s.getLast? = some '/' then s.dropLast else s

/-- split on slash and take element 0: everything before the first slash. -/
def takeBeforeSlash (s : List Char) : List Char :=
  s.takeWhile (fun c => c != '/')

/-- normalizeDomain from the source on character lists: lower-case, strip a
leading scheme, strip a leading "www.", strip one trailing slash, keep the
part before the first remaining slash.  The empty list branch mirrors the
falsy guard (if the domain is missing return the empty string). -/
def normList (s : List Char) : List Char :=
  if s = [] then []
  else takeBeforeSlash (stripTrailingSlash (stripWww (stripScheme (s.map Char.toLower))))

/-- normalizeDomain from the source, on strings. -/
def normalizeDomain (domain : String) : String :=
  String.mk (normList domain.data)

/-- JavaScript String.prototype.includes: the second string occurs as a
contiguous substring of the first. -/
def jsIncludes (a b : String) : Bool := decide (b.data <:+: a.data)

/-- The domainMatches expression from the validate endpoint.  Note that the
third disjunct searches the RAW licensed domain (licensedDomain.includes),
not its normalized form. -/
def domainMatches (licensedDomain requestDomain : String) : Bool :=
  (normalizeDomain licensedDomain == normalizeDomain requestDomain)
    || (licensedDomain == "unknown.com")
    || jsIncludes licensedDomain (normalizeDomain requestDomain)

/-- The domain-match rule as the spec words it for claim C3: equality of
normalized forms, the unbound sentinel, or the NORMALIZED license domain
containing the normalized request domain. -/
def matchesSpecC3 (licensedDomain requestDomain : String) : Bool :=
  (normalizeDomain licensedDomain == normalizeDomain requestDomain)
    || (licensedDomain == "unknown.com")
    || jsIncludes (normalizeDomain licensedDomain) (normalizeDomain requestDomain)

/-- Mapping a function that fixes every member of a list fixes the list. -/
theorem map_eq_self_of_mem {α : Type} {f : α → α} {l : List α}
    (h : ∀ c ∈ l, f c = c) : l.map f = l := by
  induction l with
  | nil => rfl
  | cons a t ih =>
    simp only [List.map_cons]
    rw [h a (List.mem_cons_self a t), ih (fun c hc => h c (List.mem_cons_of_mem a hc))]

/-- stripScheme only removes characters. -/
theorem stripScheme_sublist (s : List Char) : (stripScheme s).Sublist s := by
  unfold stripScheme
  split
  · exact List.drop_sublist 8 s
  · split
    · exact List.drop_sublist 7 s
    · exact List.Sublist.refl s

/-- stripWww only removes characters. -/
theorem stripWww_sublist (s : List Char) : (stripWww s).Sublist s := by
  unfold stripWww
  split
  · exact List.drop_sublist 4 s
  · exact List.Sublist.refl s

/-- stripTrailingSlash only removes characters. -/
theorem stripTrailingSlash_sublist (s : List Char) :
    (stripTrailingSlash s).Sublist s := by
  unfold stripTrailingSlash
  split
  · exact List.dropLast_sublist s
  · exact List.Sublist.refl s

/-- takeBeforeSlash only removes characters. -/
theorem takeBeforeSlash_sublist (s : List Char) :
    (takeBeforeSlash s).Sublist s :=
  List.takeWhile_sublist _

/-- Every character of a normalized domain comes from the lower-cased
input. -/
theorem normList_sublist (s : List Char) :
    (normList s).Sublist (s.map Char.toLower) := by
  unfold normList
  split
  · simp
  · exact ((takeBeforeSlash_sublist _).trans
      ((stripTrailingSlash_sublist _).trans (stripWww_sublist _))).trans
      (stripScheme_sublist _)

/-- Every character of a normalized domain is lower-case-fixed. -/
theorem normList_lower {s : List Char} {c : Char} (hc : c ∈ normList s) :
    Char.toLower c = c := by
  have hm : c ∈ s.map Char.toLower := (normList_sublist s).mem hc
  obtain ⟨d, _, rfl⟩ := List.mem_map.mp hm
  exact toLower_toLower d

/-- A normalized domain contains no slash: takeBeforeSlash cuts at the first
one. -/
theorem normList_ne_slash {s : List Char} {c : Char} (hc : c ∈ normList s) :
    c ≠ '/' := by
  unfold normList at hc
  split at hc
  · simp at hc
  · have := List.mem_takeWhile_imp hc
    simpa using this

/-- The scheme strippers fix any list without a slash. -/
theorem stripScheme_eq_self {s : List Char} (h : ∀ c ∈ s, c ≠ '/') :
    stripScheme s = s := by
  unfold stripScheme
  rw [if_neg, if_neg]
  · intro hpre
    exact h '/' ((List.isPrefixOf_iff_prefix.mp hpre).subset (by decide)) rfl
  · intro hpre
    exact h '/' ((List.isPrefixOf_iff_prefix.mp hpre).subset (by decide)) rfl

/-- stripTrailingSlash fixes any list without a slash. -/
theorem stripTrailingSlash_eq_self {s : List Char} (h : ∀ c ∈ s, c ≠ '/') :
    stripTrailingSlash s = s := by
  unfold stripTrailingSlash
  rw [if_neg]
  intro hlast
  obtain ⟨ys, hys⟩ := List.getLast?_eq_some_iff.mp hlast
  exact h '/' (hys ▸ List.mem_append_right ys (List.mem_singleton.mpr rfl)) rfl

/-- takeBeforeSlash fixes any list without a slash. -/
theorem takeBeforeSlash_eq_self {s : List Char} (h : ∀ c ∈ s, c ≠ '/') :
    takeBeforeSlash s = s := by
  unfold takeBeforeSlash
  rw [List.takeWhile_eq_self_iff]
  intro c hc
  simpa using h c hc

/-- Normalization fixes every lower-case slash-free list that does not start
with "www.". -/
theorem normList_fixed {r : List Char}
    (hlower : ∀ c ∈ r, Char.toLower c = c) (hslash : ∀ c ∈ r, c ≠ '/')
    (hw : wwwChars.isPrefixOf r = false) : normList r = r := by
  by_cases hr : r = []
  · rw [hr]
    rfl
  · unfold normList
    rw [if_neg hr, map_eq_self_of_mem hlower, stripScheme_eq_self hslash]
    unfold stripWww
    rw [if_neg (by simp [hw]), stripTrailingSlash_eq_self hslash,
      takeBeforeSlash_eq_self hslash]

/-- Normalization is idempotent on lists whose first pass does not produce a
leading "www.". -/
theorem normList_idem (s : List Char)
    (hw : wwwChars.isPrefixOf (normList s) = false) :
    normList (normList s) = normList s :=
  normList_fixed (fun _ hc => normList_lower hc) (fun _ hc => normList_ne_slash hc) hw

/-- Claim C4 counterexample: normalization is NOT idempotent as stated; a
domain with a doubled "www." prefix loses one "www." per pass, so the second
pass changes the result again. -/
theorem normalizeDomain_not_idem :
    normalizeDomain (normalizeDomain "www.www.example.com")
      ≠ normalizeDomain "www.www.example.com" := by decide

/-- Claim C4 (amended): normalizeDomain is idempotent on every domain whose
normalized form does not itself start with "www." (the single-pass "www."
strip is the only non-idempotent step). -/
theorem normalizeDomain_idem (d : String)
    (h : wwwChars.isPrefixOf (normalizeDomain d).data = false) :
    normalizeDomain (normalizeDomain d) = normalizeDomain d :=
  congrArg String.mk (normList_idem d.data h)

/-- Witness for claim C4 at a concrete domain with scheme, "www.", mixed
case, path and no residual "www." prefix. -/
theorem normalizeDomain_idem_witness :
    normalizeDomain (normalizeDomain "HTTP://www.Example.COM/path/x")
      = normalizeDomain "HTTP://www.Example.COM/path/x" :=
  normalizeDomain_idem "HTTP://www.Example.COM/path/x" (by decide)

/-- Claim C3 counterexample: the spec says the substring clause uses the
NORMALIZED license domain, but the code searches the raw stored value; an
upper-case stored license domain whose normalized form contains the request
domain is rejected by the code. -/
theorem domainMatches_spec_counterexample :
    matchesSpecC3 "SUB.EXAMPLE.COM" "example.com" = true
      ∧ domainMatches "SUB.EXAMPLE.COM" "example.com" = false := by decide

/-- Claim C3 (amended): domainMatches is true exactly when the normalized
forms are equal, or the stored license domain equals the unbound sentinel,
or the RAW stored license domain contains the normalized request domain as a
substring; the two case/scheme/slash-insensitivity examples hold. -/
theorem domainMatches_characterization :
    (∀ l r : String, domainMatches l r = true ↔
      (normalizeDomain l = normalizeDomain r ∨ l = "unknown.com"
        ∨ (normalizeDomain r).data <:+: l.data))
    ∧ domainMatches "example.com" "www.example.com" = true
    ∧ domainMatches "EXAMPLE.com/" "example.com" = true := by
  refine ⟨fun l r => ?_, by decide, by decide⟩
  simp [domainMatches, jsIncludes, or_assoc]

/-- Witness for claim C3 at a concrete pair of domains. -/
theorem domainMatches_characterization_witness :
    domainMatches "foo.com" "foo.com" = true ↔
      (normalizeDomain "foo.com" = normalizeDomain "foo.com"
        ∨ "foo.com" = "unknown.com"
        ∨ (normalizeDomain "foo.com").data <:+: "foo.com".data) :=
  domainMatches_characterization.1 "foo.com" "foo.com"

/-- The JavaScript comparison license.expires_at < new Date() returned by the
pg driver: a SQL NULL becomes JS null, which the relational comparison
coerces to 0; a timestamp compares by epoch milliseconds. -/
def jsDateLt (expiresAt : Option Int) (now : Int) : Bool :=
  match expiresAt with
  | none => decide (0 < now)
  | some t => decide (t < now)

/-- SELECT * FROM licenses WHERE license_key = key AND status = 'active',
taking rows[0]. -/
def findActiveByKey (db : List License) (key : String) : Option License :=
  List.find? (fun l => l.license_key == key && l.status == "active") db

/-- UPDATE licenses SET status = 'expired', updated_at = NOW() WHERE
license_key = key. -/
def markExpired (db : List License) (key : String) (now : Int) : List License :=
  db.map (fun l =>
    if l.license_key == key then { l with status := "expired", updated_at := some now }
    else l)

/-- UPDATE licenses SET last_used = NOW(), usage_count = usage_count + 1
WHERE license_key = key. -/
def incrementUsage (db : List License) (key : String) (now : Int) : List License :=
  db.map (fun l =>
    if l.license_key == key then
      { l with last_used := some now, usage_count := l.usage_count + 1 }
    else l)

/-- The response of the validate endpoint: a 400 caller error, a
valid-false business rejection with its reason string, or a valid-true
response carrying the license payload. -/
inductive ValidateResult where
  | callerError (error : String)
  | invalid (error : String)
  | valid (key : String) (plan : String) (features : FeatureSet)
      (expiresAt : Option Int) (domain : String) (email : String)
deriving DecidableEq, Repr

/-- The validate endpoint from the source: required-field guards, fetch by
key filtered to active, lazy expiry transition, domain match, then the usage
update and the success payload.  Returns the response together with the
database after the call. -/
def validate (db : List License) (licenseKey domain : String) (now : Int) :
    ValidateResult × List License :=
  if licenseKey = "" then (ValidateResult.callerError "License key is required", db)
  else if domain = "" then (ValidateResult.callerError "Domain is required", db)
  else
    match findActiveByKey db licenseKey with
    | none => (ValidateResult.invalid "Invalid or inactive license key", db)
    | some license =>
      if jsDateLt license.expires_at now then
        (ValidateResult.invalid "License has expired", markExpired db licenseKey now)
      else if !domainMatches license.domain domain then
        (ValidateResult.invalid ("License not valid for domain: " ++ domain), db)
      else
        (ValidateResult.valid licenseKey license.plan
          (getLicenseFeatures license.plan) license.expires_at license.domain
          license.email,
         incrementUsage db licenseKey now)

/-- Branch lemma: an active row whose expiry compares below now takes the
expired branch. -/
theorem validate_expired_eq (db : List License) (key dom : String) (now : Int)
    (lic : License) (hk : key ≠ "") (hd : dom ≠ "")
    (hfind : findActiveByKey db key = some lic)
    (hexp : jsDateLt lic.expires_at now = true) :
    validate db key dom now
      = (ValidateResult.invalid "License has expired", markExpired db key now) := by
  unfold validate
  rw [if_neg hk, if_neg hd, hfind]
  simp [hexp]

/-- Branch lemma: when no active row carries the key, validation rejects
without touching the database. -/
theorem validate_notfound_eq (db : List License) (key dom : String) (now : Int)
    (hk : key ≠ "") (hd : dom ≠ "")
    (hfind : findActiveByKey db key = none) :
    validate db key dom now
      = (ValidateResult.invalid "Invalid or inactive license key", db) := by
  unfold validate
  rw [if_neg hk, if_neg hd, hfind]

/-- After marking a key expired no active row carries that key. -/
theorem findActiveByKey_markExpired (db : List License) (key : String) (now : Int) :
    findActiveByKey (markExpired db key now) key = none := by
  rw [findActiveByKey, List.find?_eq_none]
  intro x hx
  unfold markExpired at hx
  obtain ⟨l, _, rfl⟩ := List.mem_map.mp hx
  by_cases hlk : l.license_key == key
  · simp [hlk]
  · simp [hlk]

/-- markExpired never changes a usage counter. -/
theorem markExpired_usage (db : List License) (key : String) (now : Int) :
    (markExpired db key now).map License.usage_count = db.map License.usage_count := by
  unfold markExpired
  rw [List.map_map]
  congr 1
  funext l
  simp only [Function.comp]
  split <;> rfl

/-- Every row carrying the key has status expired after markExpired. -/
theorem markExpired_status (db : List License) (key : String) (now : Int) :
    ∀ l ∈ markExpired db key now, l.license_key = key → l.status = "expired" := by
  intro l hl hlk
  obtain ⟨m, _, rfl⟩ := List.mem_map.mp hl
  by_cases hmk : (m.license_key == key) = true
  · rw [if_pos hmk]
  · rw [if_neg hmk] at hlk ⊢
    exact absurd (by simp [hlk]) hmk

/-- incrementUsage adds exactly one to the counter of every row carrying the
key and leaves every other counter alone. -/
theorem incrementUsage_usage (db : List License) (key : String) (now : Int) :
    (incrementUsage db key now).map License.usage_count
      = db.map (fun l => if l.license_key == key then l.usage_count + 1 else l.usage_count) := by
  unfold incrementUsage
  rw [List.map_map]
  congr 1
  funext l
  simp only [Function.comp]
  split <;> rfl

/-- incrementUsage stamps last_used with the call time on every row carrying
the key. -/
theorem incrementUsage_lastUsed (db : List License) (key : String) (now : Int) :
    ∀ l ∈ incrementUsage db key now, l.license_key = key → l.last_used = some now := by
  intro l hl hlk
  obtain ⟨m, _, rfl⟩ := List.mem_map.mp hl
  by_cases hmk : (m.license_key == key) = true
  · rw [if_pos hmk]
  · rw [if_neg hmk] at hlk ⊢
    exact absurd (by simp [hlk]) hmk

/-- Claim C2: on an active license whose expiry is strictly in the past, the
first validate call answers "License has expired" and persists
status = expired for that key; the second call answers through the
not-found/inactive path without further mutation; neither call changes any
usage counter. -/
theorem validate_expired_then_inactive (db : List License) (key dom : String)
    (now1 now2 : Int) (lic : License) (t : Int)
    (hk : key ≠ "") (hd : dom ≠ "")
    (hfind : findActiveByKey db key = some lic)
    (hexp : lic.expires_at = some t) (ht : t < now1) :
    validate db key dom now1
      = (ValidateResult.invalid "License has expired", markExpired db key now1)
    ∧ (∀ l ∈ markExpired db key now1, l.license_key = key → l.status = "expired")
    ∧ validate (markExpired db key now1) key dom now2
        = (ValidateResult.invalid "Invalid or inactive license key", markExpired db key now1)
    ∧ (markExpired db key now1).map License.usage_count = db.map License.usage_count := by
  have hexp2 : jsDateLt lic.expires_at now1 = true := by simp [jsDateLt, hexp, ht]
  exact ⟨validate_expired_eq db key dom now1 lic hk hd hfind hexp2,
    markExpired_status db key now1,
    validate_notfound_eq (markExpired db key now1) key dom now2 hk hd
      (findActiveByKey_markExpired db key now1),
    markExpired_usage db key now1⟩

/-- A concrete active license row that expired at time 100. -/
def sampleExpired : License :=
  { license_key := "EAA-TEST-1234-ABCD"
  , customer_id := "cus_1"
  , subscription_id := some "sub_1"
  , email := "test@example.com"
  , domain := "example.com"
  , plan := "pro"
  , status := "active"
  , created_at := some 0
  , updated_at := some 0
  , expires_at := some 100
  , last_used := none
  , usage_count := 0 }

/-- Witness for claim C2 on a one-row database validated at times 200 and
300. -/
theorem validate_expired_then_inactive_witness :
    validate [sampleExpired] "EAA-TEST-1234-ABCD" "example.com" 200
      = (ValidateResult.invalid "License has expired",
         markExpired [sampleExpired] "EAA-TEST-1234-ABCD" 200)
    ∧ (∀ l ∈ markExpired [sampleExpired] "EAA-TEST-1234-ABCD" 200,
        l.license_key = "EAA-TEST-1234-ABCD" → l.status = "expired")
    ∧ validate (markExpired [sampleExpired] "EAA-TEST-1234-ABCD" 200)
        "EAA-TEST-1234-ABCD" "example.com" 300
        = (ValidateResult.invalid "Invalid or inactive license key",
           markExpired [sampleExpired] "EAA-TEST-1234-ABCD" 200)
    ∧ (markExpired [sampleExpired] "EAA-TEST-1234-ABCD" 200).map License.usage_count
        = [sampleExpired].map License.usage_count :=
  validate_expired_then_inactive [sampleExpired] "EAA-TEST-1234-ABCD" "example.com"
    200 300 sampleExpired 100 (by decide) (by decide) (by decide) (by decide) (by decide)

/-- Claim C10: an active license whose expires_at is NULL is treated as
expired by validate whenever the current time is after the epoch, because
the JavaScript comparison coerces null to 0; the call answers "License has
expired" and persists status = expired, so a never-expiring active license
cannot survive the validation path. -/
theorem validate_null_expiry (db : List License) (key dom : String) (now : Int)
    (lic : License) (hk : key ≠ "") (hd : dom ≠ "")
    (hfind : findActiveByKey db key = some lic)
    (hexp : lic.expires_at = none) (hnow : 0 < now) :
    validate db key dom now
      = (ValidateResult.invalid "License has expired", markExpired db key now)
    ∧ (∀ l ∈ markExpired db key now, l.license_key = key → l.status = "expired") := by
  have hexp2 : jsDateLt lic.expires_at now = true := by simp [jsDateLt, hexp, hnow]
  exact ⟨validate_expired_eq db key dom now lic hk hd hfind hexp2,
    markExpired_status db key now⟩

/-- A concrete active license row with a NULL expiry. -/
def sampleNullExpiry : License :=
  { license_key := "EAA-NULL-0000-ABCD"
  , customer_id := "cus_2"
  , subscription_id := none
  , email := "null@example.com"
  , domain := "example.org"
  , plan := "starter"
  , status := "active"
  , created_at := some 0
  , updated_at := some 0
  , expires_at := none
  , last_used := none
  , usage_count := 3 }

/-- Witness for claim C10 on a one-row database at time 500. -/
theorem validate_null_expiry_witness :
    validate [sampleNullExpiry] "EAA-NULL-0000-ABCD" "example.org" 500
      = (ValidateResult.invalid "License has expired",
         markExpired [sampleNullExpiry] "EAA-NULL-0000-ABCD" 500)
    ∧ (∀ l ∈ markExpired [sampleNullExpiry] "EAA-NULL-0000-ABCD" 500,
        l.license_key = "EAA-NULL-0000-ABCD" → l.status = "expired") :=
  validate_null_expiry [sampleNullExpiry] "EAA-NULL-0000-ABCD" "example.org" 500
    sampleNullExpiry (by decide) (by decide) (by decide) (by decide) (by decide)

/-- Claim C5: a successful validate call (active, unexpired, matching
domain) increments the usage counter of every row carrying the key by
exactly one, stamps last_used with the call time, and returns the valid
payload carrying the plan-derived feature set, the expiry, the licensed
domain and the customer email. -/
theorem validate_success (db : List License) (key dom : String) (now : Int)
    (lic : License) (hk : key ≠ "") (hd : dom ≠ "")
    (hfind : findActiveByKey db key = some lic)
    (hexp : jsDateLt lic.expires_at now = false)
    (hdom : domainMatches lic.domain dom = true) :
    validate db key dom now
      = (ValidateResult.valid key lic.plan (getLicenseFeatures lic.plan)
          lic.expires_at lic.domain lic.email,
         incrementUsage db key now)
    ∧ (incrementUsage db key now).map License.usage_count
        = db.map (fun l => if l.license_key == key then l.usage_count + 1 else l.usage_count)
    ∧ (∀ l ∈ incrementUsage db key now, l.license_key = key → l.last_used = some now) := by
  refine ⟨?_, incrementUsage_usage db key now, incrementUsage_lastUsed db key now⟩
  unfold validate
  rw [if_neg hk, if_neg hd, hfind]
  simp [hexp, hdom]

/-- A concrete active pro license bound to example.com, expiring at time
1000. -/
def sampleActive : License :=
  { license_key := "EAA-LIVE-5678-EFGH"
  , customer_id := "cus_3"
  , subscription_id := some "sub_3"
  , email := "live@example.com"
  , domain := "example.com"
  , plan := "pro"
  , status := "active"
  , created_at := some 0
  , updated_at := some 0
  , expires_at := some 1000
  , last_used := none
  , usage_count := 7 }

/-- Witness for claim C5 on a one-row database at time 50 with the matching
request domain www.example.com. -/
theorem validate_success_witness :
    validate [sampleActive] "EAA-LIVE-5678-EFGH" "www.example.com" 50
      = (ValidateResult.valid "EAA-LIVE-5678-EFGH" sampleActive.plan
          (getLicenseFeatures sampleActive.plan) sampleActive.expires_at
          sampleActive.domain sampleActive.email,
         incrementUsage [sampleActive] "EAA-LIVE-5678-EFGH" 50)
    ∧ (incrementUsage [sampleActive] "EAA-LIVE-5678-EFGH" 50).map License.usage_count
        = [sampleActive].map (fun l =>
            if l.license_key == "EAA-LIVE-5678-EFGH" then l.usage_count + 1 else l.usage_count)
    ∧ (∀ l ∈ incrementUsage [sampleActive] "EAA-LIVE-5678-EFGH" 50,
        l.license_key = "EAA-LIVE-5678-EFGH" → l.last_used = some 50) :=
  validate_success [sampleActive] "EAA-LIVE-5678-EFGH" "www.example.com" 50
    sampleActive (by decide) (by decide) (by decide) (by decide) (by decide)

/-- Claim C8: when the license is active and unexpired but the domain check
fails, validate answers with the domain-mismatch reason and returns the
database exactly as it was: no row is touched. -/
theorem validate_domain_mismatch (db : List License) (key dom : String)
    (now : Int) (lic : License) (hk : key ≠ "") (hd : dom ≠ "")
    (hfind : findActiveByKey db key = some lic)
    (hexp : jsDateLt lic.expires_at now = false)
    (hdom : domainMatches lic.domain dom = false) :
    validate db key dom now
      = (ValidateResult.invalid ("License not valid for domain: " ++ dom), db) := by
  unfold validate
  rw [if_neg hk, if_neg hd, hfind]
  simp [hexp, hdom]

/-- Witness for claim C8 on a one-row database with the non-matching request
domain other.net. -/
theorem validate_domain_mismatch_witness :
    validate [sampleActive] "EAA-LIVE-5678-EFGH" "other.net" 50
      = (ValidateResult.invalid ("License not valid for domain: " ++ "other.net"),
         [sampleActive]) :=
  validate_domain_mismatch [sampleActive] "EAA-LIVE-5678-EFGH" "other.net" 50
    sampleActive (by decide) (by decide) (by decide) (by decide) (by decide)

/-- The data the successful-payment handler reads from the checkout session
and the retrieved Stripe objects: customer reference, subscription
reference, optional metadata domain, customer email, and the billing period
end (the handler also derives the plan from the paid price; the generated
license key and resolved plan are passed in explicitly since key generation
is random and the price table lives in the environment). -/
structure PaymentSession where
  customer : String
  subscription : String
  metadataDomain : Option String
  customerEmail : String
  currentPeriodEnd : Int
deriving DecidableEq, Repr

/-- extractDomainFromEmail from the source: element 1 of email.split at the
@ sign, falling back to the unbound sentinel when missing or empty. -/
def extractDomainFromEmail (email : String) : String :=
  match email.splitOn "@" with
  | _ :: second :: _ => if second = "" then "unknown.com" else second
  | _ => "unknown.com"

/-- The row the successful-payment INSERT would create: status active,
created_at NOW(), expires_at the period end, defaults for the rest. -/
def newLicenseRow (s : PaymentSession) (licenseKey plan : String) (now : Int) : License :=
  { license_key := licenseKey
  , customer_id := s.customer
  , subscription_id := some s.subscription
  , email := s.customerEmail
  , domain := s.metadataDomain.getD (extractDomainFromEmail s.customerEmail)
  , plan := plan
  , status := "active"
  , created_at := some now
  , updated_at := some now
  , expires_at := some s.currentPeriodEnd
  , last_used := none
  , usage_count := 0 }

/-- INSERT ... ON CONFLICT (customer_id) DO UPDATE from the successful
payment handler: insert the row, or on an existing row for the customer
overwrite license_key, subscription_id, plan, status, expires_at and
updated_at while keeping email, domain, created_at and the usage fields. -/
def upsertByCustomer (db : List License) (row : License) : List License :=
  if db.any (fun l => l.customer_id == row.customer_id) then
    db.map (fun l =>
      if l.customer_id == row.customer_id then
        { l with license_key := row.license_key
               , subscription_id := row.subscription_id
               , plan := row.plan
               , status := row.status
               , expires_at := row.expires_at
               , updated_at := row.updated_at }
      else l)
  else db ++ [row]

/-- handleSuccessfulPayment from the source: build the license row for the
session and upsert it keyed by the customer reference. -/
def handleSuccessfulPayment (db : List License) (s : PaymentSession)
    (licenseKey plan : String) (now : Int) : List License :=
  upsertByCustomer db (newLicenseRow s licenseKey plan now)

/-- handlePaymentFailure from the source: UPDATE licenses SET
status = 'payment_failed', updated_at = NOW() WHERE subscription_id = id. -/
def handlePaymentFailure (db : List License) (subscriptionId : String) (now : Int) :
    List License :=
  db.map (fun l =>
    if l.subscription_id == some subscriptionId then
      { l with status := "payment_failed", updated_at := some now }
    else l)

/-- The upsert leaves the number of rows for the customer unchanged when one
exists and adds exactly one otherwise. -/
theorem upsertByCustomer_countP (db : List License) (row : License) (c : String)
    (hrc : row.customer_id = c) :
    (upsertByCustomer db row).countP (fun l => l.customer_id == c)
      = if db.any (fun l => l.customer_id == c) then
          db.countP (fun l => l.customer_id == c)
        else db.countP (fun l => l.customer_id == c) + 1 := by
  subst hrc
  unfold upsertByCustomer
  by_cases hany : db.any (fun l => l.customer_id == row.customer_id) = true
  · rw [if_pos hany, if_pos hany, List.countP_map]
    apply List.countP_congr
    intro l _
    simp only [Function.comp]
    constructor
    · intro h
      split at h
      · simpa using h
      · exact h
    · intro h
      split
      · simpa using h
      · exact h
  · rw [if_neg hany, if_neg hany, List.countP_append]
    simp

/-- Every row for the customer carries the upserted status and expiry after
the upsert (both the inserted and the updated shape set them from the
incoming row). -/
theorem upsertByCustomer_mem (db : List License) (row : License) (c : String)
    (hrc : row.customer_id = c) :
    ∀ x ∈ upsertByCustomer db row, (x.customer_id == c) = true →
      x.status = row.status ∧ x.expires_at = row.expires_at := by
  subst hrc
  unfold upsertByCustomer
  by_cases hany : db.any (fun l => l.customer_id == row.customer_id) = true
  · rw [if_pos hany]
    intro x hx hpx
    obtain ⟨l, _, rfl⟩ := List.mem_map.mp hx
    by_cases hlc : (l.customer_id == row.customer_id) = true
    · rw [if_pos hlc]
      exact ⟨rfl, rfl⟩
    · rw [if_neg hlc] at hpx
      exact absurd hpx hlc
  · rw [if_neg hany]
    intro x hx hpx
    rcases List.mem_append.mp hx with hxl | hxr
    · have hall : ∀ y ∈ db, ¬(y.customer_id == row.customer_id) = true :=
        List.any_eq_false.mp (by simpa using hany)
      exact absurd hpx (hall x hxl)
    · rw [List.mem_singleton.mp hxr]
      exact ⟨rfl, rfl⟩

/-- Claim C1: replaying a successful-payment event for the same customer and
subscription leaves exactly one license row for that customer, and that
row's status (active) and expiry are the same after the second application
as after the first: the upsert is idempotent for status and expiry.  The
hypothesis is the customer-uniqueness invariant of the store. -/
theorem successful_payment_idempotent (db : List License) (s : PaymentSession)
    (k1 k2 plan : String) (n1 n2 : Int)
    (hc : db.countP (fun l => l.customer_id == s.customer) ≤ 1) :
    (handleSuccessfulPayment (handleSuccessfulPayment db s k1 plan n1) s k2 plan n2).countP
        (fun l => l.customer_id == s.customer) = 1
    ∧ ∃ r1 r2,
        List.find? (fun l => l.customer_id == s.customer)
            (handleSuccessfulPayment db s k1 plan n1) = some r1
        ∧ List.find? (fun l => l.customer_id == s.customer)
            (handleSuccessfulPayment (handleSuccessfulPayment db s k1 plan n1) s k2 plan n2)
            = some r2
        ∧ r1.status = "active" ∧ r1.expires_at = some s.currentPeriodEnd
        ∧ r2.status = r1.status ∧ r2.expires_at = r1.expires_at := by
  have hrc1 : (newLicenseRow s k1 plan n1).customer_id = s.customer := rfl
  have hrc2 : (newLicenseRow s k2 plan n2).customer_id = s.customer := rfl
  have hcount1 : (handleSuccessfulPayment db s k1 plan n1).countP
      (fun l => l.customer_id == s.customer) = 1 := by
    rw [handleSuccessfulPayment,
      upsertByCustomer_countP db (newLicenseRow s k1 plan n1) s.customer hrc1]
    by_cases hany : db.any (fun l => l.customer_id == s.customer) = true
    · rw [if_pos hany]
      have hpos : 0 < db.countP (fun l => l.customer_id == s.customer) :=
        List.countP_pos_iff.mpr (List.any_eq_true.mp hany)
      omega
    · rw [if_neg hany]
      have h0 : db.countP (fun l => l.customer_id == s.customer) = 0 := by
        by_contra hne
        have hpos : 0 < db.countP (fun l => l.customer_id == s.customer) :=
          Nat.pos_of_ne_zero hne
        exact hany (List.any_eq_true.mpr (List.countP_pos_iff.mp hpos))
      omega
  have hany1 : (handleSuccessfulPayment db s k1 plan n1).any
      (fun l => l.customer_id == s.customer) = true :=
    List.any_eq_true.mpr (List.countP_pos_iff.mp (by omega))
  have hcount2 : (handleSuccessfulPayment (handleSuccessfulPayment db s k1 plan n1)
      s k2 plan n2).countP (fun l => l.customer_id == s.customer) = 1 := by
    rw [handleSuccessfulPayment,
      upsertByCustomer_countP _ (newLicenseRow s k2 plan n2) s.customer hrc2,
      if_pos hany1, hcount1]
  have hsome1 : (List.find? (fun l => l.customer_id == s.customer)
      (handleSuccessfulPayment db s k1 plan n1)).isSome :=
    List.find?_isSome.mpr (List.countP_pos_iff.mp (by omega))
  obtain ⟨r1, hr1⟩ := Option.isSome_iff_exists.mp hsome1
  have hpr1 : (r1.customer_id == s.customer) = true :=
    @List.find?_some License (fun l => l.customer_id == s.customer) r1
      (handleSuccessfulPayment db s k1 plan n1) hr1
  have hprops1 := upsertByCustomer_mem db (newLicenseRow s k1 plan n1) s.customer hrc1
    r1 (List.mem_of_find?_eq_some hr1) hpr1
  have hsome2 : (List.find? (fun l => l.customer_id == s.customer)
      (handleSuccessfulPayment (handleSuccessfulPayment db s k1 plan n1)
        s k2 plan n2)).isSome :=
    List.find?_isSome.mpr (List.countP_pos_iff.mp (by omega))
  obtain ⟨r2, hr2⟩ := Option.isSome_iff_exists.mp hsome2
  have hpr2 : (r2.customer_id == s.customer) = true :=
    @List.find?_some License (fun l => l.customer_id == s.customer) r2
      (handleSuccessfulPayment (handleSuccessfulPayment db s k1 plan n1) s k2 plan n2) hr2
  have hprops2 := upsertByCustomer_mem (handleSuccessfulPayment db s k1 plan n1)
    (newLicenseRow s k2 plan n2) s.customer hrc2
    r2 (List.mem_of_find?_eq_some hr2) hpr2
  exact ⟨hcount2, r1, r2, hr1, hr2, hprops1.1, hprops1.2,
    hprops2.1.trans hprops1.1.symm, hprops2.2.trans hprops1.2.symm⟩

/-- A concrete checkout session for the lifecycle witnesses. -/
def samplePaymentSession : PaymentSession :=
  { customer := "cus_9"
  , subscription := "sub_9"
  , metadataDomain := some "shop.example"
  , customerEmail := "buyer@example.com"
  , currentPeriodEnd := 5000 }

/-- Witness for claim C1: the same event applied twice to an empty store,
with two distinct generated keys. -/
theorem successful_payment_idempotent_witness :
    (handleSuccessfulPayment
        (handleSuccessfulPayment [] samplePaymentSession "EAA-AAAA-AAAA-AAAA-AAAA" "pro" 1)
        samplePaymentSession "EAA-BBBB-BBBB-BBBB-BBBB" "pro" 2).countP
        (fun l => l.customer_id == samplePaymentSession.customer) = 1
    ∧ ∃ r1 r2,
        List.find? (fun l => l.customer_id == samplePaymentSession.customer)
            (handleSuccessfulPayment [] samplePaymentSession "EAA-AAAA-AAAA-AAAA-AAAA" "pro" 1)
            = some r1
        ∧ List.find? (fun l => l.customer_id == samplePaymentSession.customer)
            (handleSuccessfulPayment
              (handleSuccessfulPayment [] samplePaymentSession "EAA-AAAA-AAAA-AAAA-AAAA" "pro" 1)
              samplePaymentSession "EAA-BBBB-BBBB-BBBB-BBBB" "pro" 2)
            = some r2
        ∧ r1.status = "active" ∧ r1.expires_at = some samplePaymentSession.currentPeriodEnd
        ∧ r2.status = r1.status ∧ r2.expires_at = r1.expires_at :=
  successful_payment_idempotent [] samplePaymentSession
    "EAA-AAAA-AAAA-AAAA-AAAA" "EAA-BBBB-BBBB-BBBB-BBBB" "pro" 1 2 (by decide)

/-- Claim C6 is violated by the code: re-processing a successful-payment
event for an existing customer overwrites the stored license key with the
freshly generated one (ON CONFLICT ... DO UPDATE SET license_key = $1), so
the key does change after creation. -/
theorem successful_payment_overwrites_key :
    (handleSuccessfulPayment [] samplePaymentSession
        "EAA-AAAA-AAAA-AAAA-AAAA" "pro" 1).map License.license_key
      = ["EAA-AAAA-AAAA-AAAA-AAAA"]
    ∧ (handleSuccessfulPayment
        (handleSuccessfulPayment [] samplePaymentSession "EAA-AAAA-AAAA-AAAA-AAAA" "pro" 1)
        samplePaymentSession "EAA-BBBB-BBBB-BBBB-BBBB" "pro" 2).map License.license_key
      = ["EAA-BBBB-BBBB-BBBB-BBBB"] := by decide

/-- Claim C9: the payment-failure handler sets status = payment_failed on
every row whose subscription reference matches and leaves expires_at,
license_key, plan, domain, email, usage_count and last_used of every row
unchanged. -/
theorem payment_failure_effect (db : List License) (subId : String) (now : Int) :
    (∀ l ∈ handlePaymentFailure db subId now,
      l.subscription_id = some subId → l.status = "payment_failed")
    ∧ (handlePaymentFailure db subId now).map License.expires_at = db.map License.expires_at
    ∧ (handlePaymentFailure db subId now).map License.license_key = db.map License.license_key
    ∧ (handlePaymentFailure db subId now).map License.plan = db.map License.plan
    ∧ (handlePaymentFailure db subId now).map License.domain = db.map License.domain
    ∧ (handlePaymentFailure db subId now).map License.email = db.map License.email
    ∧ (handlePaymentFailure db subId now).map License.usage_count = db.map License.usage_count
    ∧ (handlePaymentFailure db subId now).map License.last_used = db.map License.last_used := by
  constructor
  · intro l hl hls
    obtain ⟨m, _, rfl⟩ := List.mem_map.mp hl
    by_cases hms : (m.subscription_id == some subId) = true
    · rw [if_pos hms]
    · rw [if_neg hms] at hls ⊢
      exact absurd (by simp [hls]) hms
  · refine ⟨?_, ?_, ?_, ?_, ?_, ?_, ?_⟩ <;>
      (unfold handlePaymentFailure
       rw [List.map_map]
       congr 1
       funext l
       simp only [Function.comp]
       split <;> rfl)

/-- Witness for claim C9 on a one-row database whose subscription matches. -/
theorem payment_failure_effect_witness :
    (∀ l ∈ handlePaymentFailure [sampleActive] "sub_3" 99,
      l.subscription_id = some "sub_3" → l.status = "payment_failed")
    ∧ (handlePaymentFailure [sampleActive] "sub_3" 99).map License.expires_at
        = [sampleActive].map License.expires_at
    ∧ (handlePaymentFailure [sampleActive] "sub_3" 99).map License.license_key
        = [sampleActive].map License.license_key
    ∧ (handlePaymentFailure [sampleActive] "sub_3" 99).map License.plan
        = [sampleActive].map License.plan
    ∧ (handlePaymentFailure [sampleActive] "sub_3" 99).map License.domain
        = [sampleActive].map License.domain
    ∧ (handlePaymentFailure [sampleActive] "sub_3" 99).map License.email
        = [sampleActive].map License.email
    ∧ (handlePaymentFailure [sampleActive] "sub_3" 99).map License.usage_count
        = [sampleActive].map License.usage_count
    ∧ (handlePaymentFailure [sampleActive] "sub_3" 99).map License.last_used
        = [sampleActive].map License.last_used :=
  payment_failure_effect [sampleActive] "sub_3" 99
